import Mathlib

/-!
Verification of the bulletin-board client's synchronization core.

This file is a shallow embedding, in Lean 4, of the parts of the
bethwickerson/bulletin-board TypeScript sources that the specification's
testable properties talk about:

* the TTL cache (`src/lib/cache.ts`, class `Cache`),
* the Supabase fetch wrapper with retry/timeout escalation
  (`src/lib/supabase.ts` and its superseded revision),
* the App-level gesture/mutation handlers (`src/App.tsx`),
* the PostIt drag/resize/rotate coordinate math
  (`src/components/PostIt.tsx`),
* the load-time ownership sort and the change-feed handlers of the
  paginated revisions of `App.tsx`.

JavaScript numbers are modelled as `ℚ` (all arithmetic the claims touch is
exact on the inputs involved), ids and strings as `String`, fallible remote
results as `Option`/`Except`, and the network as an explicit list of issued
calls.  Each modelled function keeps the name of the source function it
embeds; namespaces mark the source file (or superseded revision) it comes
from.
-/

/-- JavaScript `Math.round`: round half towards positive infinity. -/
def jsRound (x : ℚ) : ℤ := ⌊x + 1 / 2⌋

/-- JavaScript `Math.floor`. -/
def jsFloor (x : ℚ) : ℤ := ⌊x⌋

/-- Lexicographic strict order on character lists by code point, the
comparison `String.prototype.localeCompare` performs on the plain
identifier strings the code feeds it. -/
def strLtB : List Char → List Char → Bool
  | [], [] => false
  | [], _ :: _ => true
  | _ :: _, [] => false
  | c :: cs, d :: ds =>
    if c.toNat < d.toNat then true
    else if d.toNat < c.toNat then false
    else strLtB cs ds

/-- `a` comes no later than `b` in code-point order. -/
def strLe (a b : String) : Prop := strLtB b.data a.data = false

/-- Note kinds, from `src/types.ts` (`'text' | 'meme' | 'image'`). -/
inductive NoteType
  | text
  | meme
  | image
deriving DecidableEq, Repr

/-- The client-side note entity, from `src/types.ts` as extended by the
revisions that carry size and rotation (`mapNoteFromDb` in the paginated
`App.tsx` revision): `width`, `height`, `rotation` are optional. -/
structure Note where
  id : String
  content : String
  position : ℚ × ℚ
  author : String
  color : String
  ty : NoteType
  memeUrl : Option String
  width : Option ℚ
  height : Option ℚ
  rotation : Option ℚ
deriving DecidableEq, Repr

namespace Cache

/-! Model of `src/lib/cache.ts` (the `Cache` class).

The mutable `Record<string, CacheEntry<unknown>>` becomes an association
list with at most one binding per key; `Date.now()` becomes an explicit
`now : ℤ` (milliseconds) passed to each operation.  The `setTimeout`
deletion that `set` schedules when a `ttl` is given becomes an explicit
`timers` list together with `fireDue`, which performs every deletion whose
scheduled time has been reached. -/

/-- `CacheEntry<T>`: the stored data and the `Date.now()` at `set` time. -/
structure CacheEntry (α : Type) where
  data : α
  timestamp : ℤ
deriving DecidableEq, Repr

/-- `private defaultTTL = 60 * 1000`. -/
def defaultTTL : ℤ := 60 * 1000

/-- The cache's observable state: the entry record plus the pending
`setTimeout` deletions scheduled by `set` (key and absolute fire time). -/
structure CacheState (α : Type) where
  entries : List (String × CacheEntry α)
  timers : List (String × ℤ)
deriving DecidableEq, Repr

/-- The empty cache. -/
def empty (α : Type) : CacheState α := ⟨[], []⟩

/-- `delete this.cache[key]`. -/
def eraseKey {α : Type} (st : CacheState α) (key : String) : CacheState α :=
  { st with entries := st.entries.filter (fun e => e.1 ≠ key) }

/-- `get(key)`: returns the cached value, or `none` if absent or if the
entry is older than `defaultTTL` (in which case it is deleted). -/
def get {α : Type} (st : CacheState α) (key : String) (now : ℤ) :
    Option α × CacheState α :=
  match st.entries.find? (fun e => e.1 = key) with
  | none => (none, st)
  | some (_, entry) =>
    if now - entry.timestamp > defaultTTL then
      (none, eraseKey st key)
    else
      (some entry.data, st)

/-- `set(key, data, ttl?)`: stores `{data, timestamp: now}`; when a truthy
`ttl` is supplied, schedules a deletion of the key `ttl` ms later. -/
def set {α : Type} (st : CacheState α) (key : String) (data : α) (now : ℤ)
    (ttl : Option ℤ) : CacheState α :=
  let entries := (key, CacheEntry.mk data now) :: st.entries.filter (fun e => e.1 ≠ key)
  match ttl with
  | some t => if t ≠ 0 then ⟨entries, (key, now + t) :: st.timers⟩ else ⟨entries, st.timers⟩
  | none => ⟨entries, st.timers⟩

/-- `has(key)`: same liveness check as `get`, returning a boolean. -/
def has {α : Type} (st : CacheState α) (key : String) (now : ℤ) :
    Bool × CacheState α :=
  match st.entries.find? (fun e => e.1 = key) with
  | none => (false, st)
  | some (_, entry) =>
    if now - entry.timestamp > defaultTTL then
      (false, eraseKey st key)
    else
      (true, st)

/-- `remove(key)`: unconditional deletion. -/
def remove {α : Type} (st : CacheState α) (key : String) : CacheState α :=
  eraseKey st key

/-- Event-loop timer delivery: every scheduled `setTimeout` deletion whose
fire time is at most `now` runs (`delete this.cache[key]`). -/
def fireDue {α : Type} (st : CacheState α) (now : ℤ) : CacheState α :=
  let due := st.timers.filter (fun t => t.2 ≤ now)
  { entries := st.entries.filter (fun e => due.all (fun t => t.1 ≠ e.1)),
    timers := st.timers.filter (fun t => ¬ t.2 ≤ now) }

end Cache

namespace Supabase

/-! Model of the retry/timeout fetch wrapper installed as the Supabase
client's `global.fetch` (`src/lib/supabase.ts`, and the superseded revision
with longer timeouts and fewer attempts).

The endpoint's behaviour at each attempt is an explicit function
`endpoint : ℕ → Behavior`; the wrapper's recursion on the attempt counter
becomes structural recursion on the number of remaining retries.  The
result records the timeout used at every attempt that was performed,
together with the surfaced outcome. -/

/-- What the remote endpoint does on a given attempt: respond, exceed the
attempt's timeout, or reject with some other error message. -/
inductive Behavior
  | respond
  | timeout
  | fail (msg : String)

/-- The rejection message of the timeout promise:
`Request timed out after ${timeout}ms`. -/
def timeoutErrMsg (t : ℕ) : String :=
  "Request timed out after " ++ toString t ++ "ms"

/-- The descriptive terminal error built after exhausting all retries:
`Database connection timed out after ${maxAttempts} attempts. ...`. -/
def exhaustedErrMsg (maxAttempts : ℕ) : String :=
  "Database connection timed out after " ++ toString maxAttempts ++
    " attempts. Please try again later."

/-- JavaScript `String.prototype.includes`: contiguous substring test. -/
def jsIncludes (s sub : String) : Bool := decide (sub.data <:+: s.data)

/-- The last-attempt error handling: `if (error.message.includes('timeout'))`
wrap into the descriptive message, else rethrow the original error. -/
def finalError (msg : String) (maxAttempts : ℕ) : String :=
  if jsIncludes msg "timeout" then exhaustedErrMsg maxAttempts else msg

/-- `fetchWithTimeout(attempt)` unrolled: `attempt` is the 1-indexed attempt
number, `remaining` the number of retries still allowed after it (so
`attempt < maxAttempts` in the source corresponds to `remaining > 0`).
Returns the timeout used at each performed attempt and the final result. -/
def fetchAttempts (endpoint : ℕ → Behavior) (base cap maxAttempts : ℕ) :
    (attempt : ℕ) → (remaining : ℕ) → List ℕ × Except String Unit
  | attempt, remaining =>
    let t := min (base * attempt) cap
    match endpoint attempt with
    | .respond => ([t], .ok ())
    | .timeout =>
      match remaining with
      | r + 1 =>
        let rest := fetchAttempts endpoint base cap maxAttempts (attempt + 1) r
        (t :: rest.1, rest.2)
      | 0 => ([t], .error (finalError (timeoutErrMsg t) maxAttempts))
    | .fail m =>
      match remaining with
      | r + 1 =>
        let rest := fetchAttempts endpoint base cap maxAttempts (attempt + 1) r
        (t :: rest.1, rest.2)
      | 0 => ([t], .error (finalError m maxAttempts))

/-- The whole wrapped call: start at attempt 1 with `maxAttempts - 1`
retries left.  Live revision: `maxAttempts = 5`, `baseTimeout = 3000`,
cap `10000`; superseded revision: `3`, `10000`, cap `30000`. -/
def fetchWithTimeout (endpoint : ℕ → Behavior) (base cap maxAttempts : ℕ) :
    List ℕ × Except String Unit :=
  fetchAttempts endpoint base cap maxAttempts 1 (maxAttempts - 1)

end Supabase

/-- A network call issued to the remote note store through the Supabase
client.  Each constructor records the payload the source passes. -/
inductive NetCall
  | insert (content author : String) (x y : ℚ) (color : String)
      (ty : NoteType) (memeUrl : Option String)
  | updatePosition (id : String) (x y : ℚ)
  | updateColor (id : String) (color : String)
  | updateSize (id : String) (width height : ℚ)
  | updateRotation (id : String) (rotation : ℚ)
  | deleteNote (id : String)
deriving DecidableEq, Repr

namespace App

/-! Model of the live `src/App.tsx` component state and handlers.

React state becomes an explicit `AppState`; each handler returns the
updated state together with the list of network calls it issued (empty
when the handler returns early).  `Math.random()` draws become explicit
`ℚ` parameters in `[0, 1)`, and the remote insert's result (`data`,
`error`) becomes an `Option` of the server-assigned id. -/

/-- The `COLORS` palette notes are created from. -/
def COLORS : List String :=
  ["#fef3c7", "#dbeafe", "#dcfce7", "#fce7f3", "#f3e8ff"]

/-- The React component state the handlers read and write. -/
structure AppState where
  notes : List Note
  myNoteIds : List String
  activeNoteId : Option String
deriving DecidableEq, Repr

/-- `parseInt(hexDigit, 16)` for one character. -/
def hexDigitVal (c : Char) : ℕ :=
  if '0' ≤ c ∧ c ≤ '9' then c.toNat - '0'.toNat
  else if 'a' ≤ c ∧ c ≤ 'f' then c.toNat - 'a'.toNat + 10
  else if 'A' ≤ c ∧ c ≤ 'F' then c.toNat - 'A'.toNat + 10
  else 0

/-- `parseInt(color.slice(i, i + 2), 16)`. -/
def parseHexPair (s : String) (i : ℕ) : ℕ :=
  16 * hexDigitVal (s.data.getD i '0') + hexDigitVal (s.data.getD (i + 1) '0')

/-- The `finalColor` computation of `handleColorChange`: opacity below 1
converts the hex colour to an `rgba(r, g, b, opacity)` string. -/
def finalColor (color : String) (opacity : ℚ) : String :=
  if opacity < 1 then
    "rgba(" ++ toString (parseHexPair color 1) ++ ", " ++
      toString (parseHexPair color 3) ++ ", " ++
      toString (parseHexPair color 5) ++ ", " ++ toString opacity ++ ")"
  else color

/-- `COLORS[Math.floor(r3 * COLORS.length)]` for the random draw `r3`. -/
def pickColor (r3 : ℚ) : String :=
  COLORS.getD (jsFloor (r3 * COLORS.length)).toNat "#fef3c7"

/-- `if (type === 'image' && imageData) noteData.meme_url = imageData`:
only a truthy image payload of an image note is attached. -/
def imagePayload (ty : NoteType) (imageData : Option String) : Option String :=
  match ty, imageData with
  | NoteType.image, some d => if d = "" then none else some d
  | _, _ => none

/-- `handleAddNote(content, author, type, imageData?)`.

`r1`, `r2` are the two `Math.random()` draws for the position, `r3` the
draw selecting the colour.  `serverId` is the id of the row the insert
returned (`data[0].id`), or `none` when the insert failed.  The remote
table is modelled as the list `store`; a successful insert appends the
persisted row.  Returns the new component state, the new remote store and
the issued calls. -/
def handleAddNote (st : AppState) (store : List Note)
    (content author : String) (ty : NoteType) (imageData : Option String)
    (r1 r2 r3 : ℚ) (serverId : Option String) :
    AppState × List Note × List NetCall :=
  let x : ℚ := 100 + r1 * 300
  let y : ℚ := 100 + r2 * 300
  let color := pickColor r3
  let memeUrl : Option String := imagePayload ty imageData
  let call := NetCall.insert content author x y color ty memeUrl
  match serverId with
  | some newNoteId =>
    ({ st with myNoteIds := st.myNoteIds ++ [newNoteId] },
     store ++ [⟨newNoteId, content, (x, y), author, color, ty, memeUrl, none, none, none⟩],
     [call])
  | none => (st, store, [call])

/-- `handleDeleteNote(id)`: gated on `myNoteIds.includes(id)`; when gated
through, issues the delete, resets the active note if it was the deleted
one, and removes the id from `myNoteIds`. -/
def handleDeleteNote (st : AppState) (id : String) : AppState × List NetCall :=
  if st.myNoteIds.contains id then
    ({ st with
        activeNoteId := if st.activeNoteId = some id then none else st.activeNoteId,
        myNoteIds := st.myNoteIds.filter (fun noteId => noteId ≠ id) },
     [NetCall.deleteNote id])
  else
    (st, [])

/-- `handleColorChange(id, color, opacity = 1)`: gated on
`myNoteIds.includes(id)`; when gated through, issues one update carrying
the final colour. -/
def handleColorChange (st : AppState) (id : String) (color : String)
    (opacity : ℚ) : AppState × List NetCall :=
  if st.myNoteIds.contains id then
    (st, [NetCall.updateColor id (finalColor color opacity)])
  else
    (st, [])

/-- `handleResize(width, height, id)`: gated on `myNoteIds.includes(id)`;
when gated through, issues one update carrying the size. -/
def handleResize (st : AppState) (width height : ℚ) (id : String) :
    AppState × List NetCall :=
  if st.myNoteIds.contains id then
    (st, [NetCall.updateSize id width height])
  else
    (st, [])

/-- `handleRotate(rotation, id)` of the live `src/App.tsx`: gated on
`myNoteIds.includes(id)`; when gated through, issues one update carrying
the rotation value exactly as received — no rounding. -/
def handleRotate (st : AppState) (rotation : ℚ) (id : String) :
    AppState × List NetCall :=
  if st.myNoteIds.contains id then
    (st, [NetCall.updateRotation id rotation])
  else
    (st, [])

end App

namespace PostIt

/-! Model of the gesture coordinate math in `src/components/PostIt.tsx`.

Screen/pointer coordinates, the canvas pan offset (`transformPosition`)
and positions are pairs of `ℚ`; the zoom factor (`transformScale`) is a
`ℚ`. -/

/-- The pan/zoom correction applied to a pointer event:
`adjusted = (e.client − transformPosition) / transformScale`. -/
def adjustedPointer (transformPosition : ℚ × ℚ) (transformScale : ℚ)
    (e : ℚ × ℚ) : ℚ × ℚ :=
  ((e.1 - transformPosition.1) / transformScale,
   (e.2 - transformPosition.2) / transformScale)

/-- `handleMouseDown`: records the drag offset between the adjusted
pointer and the note's current position. -/
def handleMouseDown (transformPosition : ℚ × ℚ) (transformScale : ℚ)
    (e : ℚ × ℚ) (position : ℚ × ℚ) : ℚ × ℚ :=
  let adjusted := adjustedPointer transformPosition transformScale e
  (adjusted.1 - position.1, adjusted.2 - position.2)

/-- The dragging branch of `handleGlobalMouseMove`: the new transient
position is the adjusted pointer minus the recorded drag offset. -/
def handleGlobalMouseMove (transformPosition : ℚ × ℚ) (transformScale : ℚ)
    (e : ℚ × ℚ) (dragOffset : ℚ × ℚ) : ℚ × ℚ :=
  let adjusted := adjustedPointer transformPosition transformScale e
  (adjusted.1 - dragOffset.1, adjusted.2 - dragOffset.2)

/-- A whole drag gesture at constant pan and scale: mouse-down at `startE`
with the note at `startPos`, then one position update per move event; the
resulting transient position is what `handleGlobalMouseUp` passes to
`onDragEnd`. -/
def dragGesture (transformPosition : ℚ × ℚ) (transformScale : ℚ)
    (startE startPos : ℚ × ℚ) (moves : List (ℚ × ℚ)) : ℚ × ℚ :=
  let dragOffset := handleMouseDown transformPosition transformScale startE startPos
  moves.foldl
    (fun _ e => handleGlobalMouseMove transformPosition transformScale e dragOffset)
    startPos

/-- The resizing branch of `handleGlobalMouseMove` / `handleResizeMove`:
both dimensions are clamped from below by 150 px. -/
def handleResizeMove (resizeStartSize : ℚ × ℚ) (delta : ℚ × ℚ) : ℚ × ℚ :=
  (max 150 (resizeStartSize.1 + delta.1), max 150 (resizeStartSize.2 + delta.2))

/-- `handleResizeEnd` / the resize branch of `handleGlobalMouseUp`: the
transient size (a number after any resize move) is passed to `onResize`,
which persists it. -/
def handleResizeEnd (id : String) (size : ℚ × ℚ) : NetCall :=
  NetCall.updateSize id size.1 size.2

end PostIt

namespace Part002

/-! Model of the paginated `App.tsx` revision (the one using `db-helpers`):
the load-time ownership sort of `loadNotes`, its realtime subscription
handler for the most recently created own note, and its `handleRotate`. -/

/-- `myNoteIds.includes(note.id)`. -/
def isOwn (myNoteIds : List String) (n : Note) : Bool :=
  myNoteIds.contains n.id

/-- The sign of `a.localeCompare(b)`, for plain string order. -/
def localeCmp (a b : String) : ℤ :=
  if strLtB a.data b.data then -1 else if strLtB b.data a.data then 1 else 0

/-- The `loadNotes` sort comparator: own notes after others, ties within
one ownership class by id comparison. -/
def sortCmp (myNoteIds : List String) (a b : Note) : ℤ :=
  let aIsOwn := isOwn myNoteIds a
  let bIsOwn := isOwn myNoteIds b
  if (aIsOwn && bIsOwn) || (!aIsOwn && !bIsOwn) then localeCmp a.id b.id
  else if aIsOwn && !bIsOwn then 1
  else if !aIsOwn && bIsOwn then -1
  else 0

/-- The "comes no later than" relation induced by the comparator. -/
def noteLE (myNoteIds : List String) (a b : Note) : Prop :=
  sortCmp myNoteIds a b ≤ 0

instance (myNoteIds : List String) : DecidableRel (noteLE myNoteIds) :=
  fun a b => inferInstanceAs (Decidable (sortCmp myNoteIds a b ≤ 0))

/-- `[...allNotes.map(mapNoteFromDb)].sort(comparator)`: the comparator is
a total order (ids are compared when the ownership classes tie), so the
engine's sort returns the unique list sorted by it; `insertionSort` by the
induced relation computes that list. -/
def loadNotesSort (myNoteIds : List String) (notes : List Note) : List Note :=
  List.insertionSort (noteLE myNoteIds) notes

/-- The `DELETE` branch of the realtime handler: drop the note from the
in-memory list and the id from `myNoteIds` (the subscription filter means
the event id is `mostRecentNoteId`). -/
def handleDeleteEvent (notes : List Note) (myNoteIds : List String)
    (mostRecentNoteId : String) : List Note × List String :=
  (notes.filter (fun note => note.id ≠ mostRecentNoteId),
   myNoteIds.filter (fun id => id ≠ mostRecentNoteId))

/-- The fields of an `UPDATE` event payload (`payload.new`); absent fields
are `none`. -/
structure UpdatePayload where
  content : Option String
  position_x : Option ℚ
  position_y : Option ℚ
  color : Option String
  width : Option ℚ
  height : Option ℚ
  rotation : Option ℚ
deriving DecidableEq, Repr

/-- JavaScript `incoming || old` for strings: an absent or empty incoming
value keeps the old one. -/
def jsOrStr (v : Option String) (old : String) : String :=
  match v with
  | some s => if s = "" then old else s
  | none => old

/-- JavaScript `incoming || old` for numbers: an absent or zero incoming
value keeps the old one. -/
def jsOrNum (v : Option ℚ) (old : ℚ) : ℚ :=
  match v with
  | some x => if x = 0 then old else x
  | none => old

/-- JavaScript `incoming || old` where the old value is itself optional. -/
def jsOrNumOpt (v : Option ℚ) (old : Option ℚ) : Option ℚ :=
  match v with
  | some x => if x = 0 then old else some x
  | none => old

/-- The `UPDATE` branch of the realtime handler: patch the matched note
field by field with `payload.new.field || note.field`. -/
def applyUpdatePayload (note : Note) (p : UpdatePayload) : Note :=
  { note with
      content := jsOrStr p.content note.content,
      position := (jsOrNum p.position_x note.position.1,
                   jsOrNum p.position_y note.position.2),
      color := jsOrStr p.color note.color,
      width := jsOrNumOpt p.width note.width,
      height := jsOrNumOpt p.height note.height,
      rotation := jsOrNumOpt p.rotation note.rotation }

/-- The surrounding `setNotes(prev => prev.map(...))` of the `UPDATE`
branch. -/
def handleUpdateEvent (notes : List Note) (mostRecentNoteId : String)
    (p : UpdatePayload) : List Note :=
  notes.map (fun note =>
    if note.id = mostRecentNoteId then applyUpdatePayload note p else note)

/-- `handleRotate(rotation, id)` of this revision: rounds the continuous
rotation to an integer before the update, and patches the local list on
success. -/
def handleRotate (notes : List Note) (rotation : ℚ) (id : String)
    (success : Bool) : List Note × List NetCall :=
  let roundedRotation : ℤ := jsRound rotation
  let patched :=
    if success then
      notes.map (fun note =>
        if note.id = id then { note with rotation := some (roundedRotation : ℚ) } else note)
    else notes
  (patched, [NetCall.updateRotation id (roundedRotation : ℚ)])

end Part002

namespace Part004

/-! Model of the earlier multi-note-subscription `App.tsx` revision: its
load-time sort (own notes first) and its realtime `DELETE` handler, which
never touches `myNoteIds`. -/

/-- The `DELETE` branch of this revision's realtime handler: the note is
dropped from the in-memory list; `myNoteIds` is passed through untouched
(no `setMyNoteIds` call exists in this handler). -/
def handleDeleteEvent (notes : List Note) (myNoteIds : List String)
    (changedNoteId : String) : List Note × List String :=
  (notes.filter (fun note => note.id ≠ changedNoteId), myNoteIds)

end Part004

/-- Concrete sample note used by the scenario witnesses and
counterexamples. -/
def sampleNote (id : String) : Note :=
  ⟨id, "hello", (0, 0), "Sam", "#fef3c7", NoteType.text, none, none, none, none⟩

/-!
## Order lemmas for the load-time sort comparator

The comparator of the paginated revision's `loadNotes` sort compares
ownership classes first and identifiers second; the lemmas below show the
induced "comes no later than" relation is a total transitive relation, so
the engine sort's output is the list sorted by it.
-/

theorem strLtB_asymm : ∀ {x y : List Char}, strLtB x y = true → strLtB y x = false
  | [], [], h => by simp [strLtB] at h
  | [], _ :: _, _ => by simp [strLtB]
  | _ :: _, [], h => by simp [strLtB] at h
  | c :: cs, d :: ds, h => by
    by_cases h1 : c.toNat < d.toNat
    · simp [strLtB, h1, Nat.lt_asymm h1]
    · by_cases h2 : d.toNat < c.toNat
      · simp [strLtB, h1, h2] at h
      · simp only [strLtB, h1, h2, if_false, if_neg] at h ⊢
        exact strLtB_asymm h

theorem strLtB_trans : ∀ {x y z : List Char},
    strLtB x y = true → strLtB y z = true → strLtB x z = true
  | [], [], _, h1, _ => by simp [strLtB] at h1
  | [], _ :: _, [], _, h2 => by simp [strLtB] at h2
  | [], _ :: _, _ :: _, _, _ => by simp [strLtB]
  | _ :: _, [], _, h1, _ => by simp [strLtB] at h1
  | _ :: _, _ :: _, [], _, h2 => by simp [strLtB] at h2
  | c :: cs, d :: ds, e :: es, h1, h2 => by
    by_cases hcd : c.toNat < d.toNat <;> by_cases hde : d.toNat < e.toNat
    · simp [strLtB, Nat.lt_trans hcd hde]
    · by_cases hed : e.toNat < d.toNat
      · simp [strLtB, hde, hed] at h2
      · have hde' : d.toNat = e.toNat :=
          Nat.le_antisymm (Nat.le_of_not_lt hed) (Nat.le_of_not_lt hde)
        simp [strLtB, hde' ▸ hcd]
    · by_cases hdc : d.toNat < c.toNat
      · simp [strLtB, hcd, hdc] at h1
      · have hcd' : c.toNat = d.toNat :=
          Nat.le_antisymm (Nat.le_of_not_lt hdc) (Nat.le_of_not_lt hcd)
        simp [strLtB, hcd' ▸ hde]
    · by_cases hdc : d.toNat < c.toNat
      · simp [strLtB, hcd, hdc] at h1
      · by_cases hed : e.toNat < d.toNat
        · simp [strLtB, hde, hed] at h2
        · have hcd' : c.toNat = d.toNat :=
            Nat.le_antisymm (Nat.le_of_not_lt hdc) (Nat.le_of_not_lt hcd)
          have hde' : d.toNat = e.toNat :=
            Nat.le_antisymm (Nat.le_of_not_lt hed) (Nat.le_of_not_lt hde)
          simp only [strLtB, hcd, hdc, hde, hed, if_neg] at h1 h2
          have hce1 : ¬ c.toNat < e.toNat := by omega
          have hce2 : ¬ e.toNat < c.toNat := by omega
          simp only [strLtB, hce1, hce2, if_neg]
          exact strLtB_trans h1 h2

theorem strLtB_eq_of_incomp : ∀ {x y : List Char},
    strLtB x y = false → strLtB y x = false → x = y
  | [], [], _, _ => rfl
  | [], _ :: _, h1, _ => by simp [strLtB] at h1
  | _ :: _, [], _, h2 => by simp [strLtB] at h2
  | c :: cs, d :: ds, h1, h2 => by
    by_cases hcd : c.toNat < d.toNat
    · simp [strLtB, hcd] at h1
    · by_cases hdc : d.toNat < c.toNat
      · simp [strLtB, hdc] at h2
      · simp only [strLtB, hcd, hdc, if_neg] at h1 h2
        have hchar : c = d :=
          Char.ext (UInt32.ext (Nat.le_antisymm (Nat.le_of_not_lt hdc) (Nat.le_of_not_lt hcd)))
        rw [hchar, strLtB_eq_of_incomp h1 h2]

theorem strLe_total (a b : String) : strLe a b ∨ strLe b a := by
  unfold strLe
  by_cases h : strLtB a.data b.data = true
  · exact Or.inl (strLtB_asymm h)
  · exact Or.inr (Bool.not_eq_true _ ▸ h)

theorem strLe_trans {a b c : String} (h1 : strLe a b) (h2 : strLe b c) : strLe a c := by
  unfold strLe at h1 h2 ⊢
  by_contra hca
  have hca' : strLtB c.data a.data = true := by
    cases h : strLtB c.data a.data
    · exact absurd h hca
    · rfl
  by_cases hbc : strLtB b.data c.data = true
  · have hba : strLtB b.data a.data = true := strLtB_trans hbc hca'
    rw [hba] at h1
    exact Bool.true_eq_false.mp h1
  · have hbc' : strLtB b.data c.data = false := by
      cases h : strLtB b.data c.data
      · rfl
      · exact absurd h hbc
    have heq : c.data = b.data := strLtB_eq_of_incomp h2 hbc'
    rw [heq] at hca'
    rw [hca'] at h1
    exact Bool.true_eq_false.mp h1

namespace Part002

theorem localeCmp_nonpos (a b : String) : localeCmp a b ≤ 0 ↔ strLe a b := by
  unfold localeCmp strLe
  by_cases hab : strLtB a.data b.data = true
  · simp [hab, strLtB_asymm hab]
  · have hab' : strLtB a.data b.data = false := by
      cases h : strLtB a.data b.data
      · rfl
      · exact absurd h hab
    by_cases hba : strLtB b.data a.data = true
    · simp [hab', hba]
    · have hba' : strLtB b.data a.data = false := by
        cases h : strLtB b.data a.data
        · rfl
        · exact absurd h hba
      simp [hab', hba']

theorem noteLE_iff (myNoteIds : List String) (a b : Note) :
    noteLE myNoteIds a b ↔
      (isOwn myNoteIds a = isOwn myNoteIds b ∧ strLe a.id b.id) ∨
      (isOwn myNoteIds a = false ∧ isOwn myNoteIds b = true) := by
  unfold noteLE sortCmp
  cases ha : isOwn myNoteIds a <;> cases hb : isOwn myNoteIds b <;>
    simp [ha, hb, localeCmp_nonpos]

theorem noteLE_total (myNoteIds : List String) (a b : Note) :
    noteLE myNoteIds a b ∨ noteLE myNoteIds b a := by
  rw [noteLE_iff, noteLE_iff]
  cases ha : isOwn myNoteIds a <;> cases hb : isOwn myNoteIds b
  · rcases strLe_total a.id b.id with h | h
    · exact Or.inl (Or.inl ⟨rfl, h⟩)
    · exact Or.inr (Or.inl ⟨rfl, h⟩)
  · exact Or.inl (Or.inr ⟨rfl, rfl⟩)
  · exact Or.inr (Or.inr ⟨rfl, rfl⟩)
  · rcases strLe_total a.id b.id with h | h
    · exact Or.inl (Or.inl ⟨rfl, h⟩)
    · exact Or.inr (Or.inl ⟨rfl, h⟩)

theorem noteLE_trans (myNoteIds : List String) (a b c : Note) :
    noteLE myNoteIds a b → noteLE myNoteIds b c → noteLE myNoteIds a c := by
  rw [noteLE_iff, noteLE_iff, noteLE_iff]
  rintro (⟨hab, hle1⟩ | ⟨ha, hb⟩) (⟨hbc, hle2⟩ | ⟨hb', hc⟩)
  · exact Or.inl ⟨hab.trans hbc, strLe_trans hle1 hle2⟩
  · exact Or.inr ⟨hab.trans hb', hc⟩
  · exact Or.inr ⟨ha, hbc ▸ hb⟩
  · rw [hb] at hb'
    exact absurd hb' (by simp)

end Part002

/-!
## The claims
-/

/-- C1: after `set(k, v, ttl)` with the 10-minute TTL the persistence
gateway passes, a `get(k)` / `has(k)` performed 120 s later — well before
the entry's TTL has elapsed — already returns the miss sentinel
(respectively `false`), because the liveness check in `get`/`has` compares
the entry's age against the fixed 60-second `defaultTTL` and ignores the
per-entry TTL; the same read at 30 s still returns the value.  This
exhibits the divergence from the claim that liveness is governed by the
per-entry TTL. -/
theorem cache_get_misses_before_per_entry_ttl :
    ((0 : ℤ) ≤ 120000 ∧ (120000 : ℤ) < 10 * 60 * 1000) ∧
    (Cache.get (Cache.fireDue (Cache.set (Cache.empty ℕ) "notes_page_0_20" 42 0
        (some (10 * 60 * 1000))) 120000) "notes_page_0_20" 120000).1 = none ∧
    (Cache.has (Cache.fireDue (Cache.set (Cache.empty ℕ) "notes_page_0_20" 42 0
        (some (10 * 60 * 1000))) 120000) "notes_page_0_20" 120000).1 = false ∧
    (Cache.get (Cache.fireDue (Cache.set (Cache.empty ℕ) "notes_page_0_20" 42 0
        (some (10 * 60 * 1000))) 30000) "notes_page_0_20" 30000).1 = some 42 :=
  ⟨by decide, by decide, by decide, by decide⟩

/-- C2: against an endpoint that always times out, the live wrapper
(`maxAttempts = 5`, `baseTimeout = 3000`, cap `10000`) performs exactly
five attempts with timeout `min(3000·k, 10000)` at attempt `k` and then
surfaces a terminal timeout error; the superseded revision
(`maxAttempts = 3`, `baseTimeout = 10000`, cap `30000`) performs exactly
three with `min(10000·k, 30000)`; a persistent non-timeout failure
surfaces its own distinct error after the same number of attempts. -/
theorem fetchWithTimeout_bounded_retry :
    Supabase.fetchWithTimeout (fun _ => .timeout) 3000 10000 5 =
      ([3000, 6000, 9000, 10000, 10000], .error (Supabase.timeoutErrMsg 10000)) ∧
    [3000, 6000, 9000, 10000, 10000] = (List.range 5).map (fun k => min (3000 * (k + 1)) 10000) ∧
    Supabase.fetchWithTimeout (fun _ => .timeout) 10000 30000 3 =
      ([10000, 20000, 30000], .error (Supabase.timeoutErrMsg 30000)) ∧
    [10000, 20000, 30000] = (List.range 3).map (fun k => min (10000 * (k + 1)) 30000) ∧
    Supabase.fetchWithTimeout (fun _ => .fail "Failed to fetch") 3000 10000 5 =
      ([3000, 6000, 9000, 10000, 10000], .error "Failed to fetch") ∧
    Supabase.timeoutErrMsg 10000 ≠ "Failed to fetch" :=
  ⟨rfl, by decide, rfl, by decide, rfl, by decide⟩

/-- C3: the live `handleRotate` of `src/App.tsx` sends the continuous
rotation `44.6` unrounded in its update payload, although `44.6 ≠ 45`;
`Math.round` — which the superseded paginated revision applies, and which
the claim requires on every rotation-persisting path — would give `45`
(and `0` for `-0.4`), as that revision's payload shows. -/
theorem handleRotate_live_sends_unrounded :
    (App.handleRotate ⟨[], ["n1"], none⟩ (223 / 5) "n1").2 =
      [NetCall.updateRotation "n1" (223 / 5)] ∧
    ((223 : ℚ) / 5 ≠ (45 : ℚ)) ∧
    jsRound (223 / 5) = 45 ∧
    jsRound (-2 / 5) = 0 ∧
    (Part002.handleRotate [] (223 / 5) "n1" true).2 =
      [NetCall.updateRotation "n1" (45 : ℚ)] := by
  refine ⟨rfl, by norm_num, by norm_num [jsRound], by norm_num [jsRound], ?_⟩
  show [NetCall.updateRotation "n1" ((jsRound (223 / 5) : ℤ) : ℚ)] = _
  norm_num [jsRound]

/-- C4: for a note id absent from the Ownership Registry (`myNoteIds`),
the gated handlers `handleDeleteNote`, `handleColorChange`, `handleResize`
and `handleRotate` all return early: the component state is unchanged and
no network call is issued (so the remote store is untouched). -/
theorem ownership_gate_rejects_locally (st : App.AppState) (id color : String)
    (opacity w h r : ℚ) (hid : st.myNoteIds.contains id = false) :
    App.handleDeleteNote st id = (st, []) ∧
    App.handleColorChange st id color opacity = (st, []) ∧
    App.handleResize st w h id = (st, []) ∧
    App.handleRotate st r id = (st, []) := by
  have hmem : id ∉ st.myNoteIds := by simpa using hid
  simp [App.handleDeleteNote, App.handleColorChange, App.handleResize, App.handleRotate, hmem]

/-- Witness for C4: a registry holding only `"a"` rejects a delete and a
recolor of `"b"` without touching state or network. -/
theorem ownership_gate_rejects_locally_witness :
    (⟨[], ["a"], none⟩ : App.AppState).myNoteIds.contains "b" = false ∧
    App.handleDeleteNote ⟨[], ["a"], none⟩ "b" = (⟨[], ["a"], none⟩, []) ∧
    App.handleColorChange ⟨[], ["a"], none⟩ "b" "#fee2e2" (1 / 2) = (⟨[], ["a"], none⟩, []) :=
  ⟨by decide,
    (ownership_gate_rejects_locally ⟨[], ["a"], none⟩ "b" "#fee2e2" (1 / 2) 200 200 10
      (by decide)).1,
    (ownership_gate_rejects_locally ⟨[], ["a"], none⟩ "b" "#fee2e2" (1 / 2) 200 200 10
      (by decide)).2.1⟩

/-- C5: a pointer event at screen coordinate `e` maps to canvas
coordinate `(e − pan) / scale`, and a drag gesture whose pointer ends at
`startE + delta` (pan and scale constant, scale nonzero) hands
`startPos + delta / scale` to `onDragEnd`, whatever intermediate moves
occurred. -/
theorem drag_coordinate_correction (tp : ℚ × ℚ) (s : ℚ)
    (startE startPos delta : ℚ × ℚ) (ms : List (ℚ × ℚ)) (hs : s ≠ 0) :
    PostIt.adjustedPointer tp s startE = ((startE.1 - tp.1) / s, (startE.2 - tp.2) / s) ∧
    PostIt.dragGesture tp s startE startPos (ms ++ [(startE.1 + delta.1, startE.2 + delta.2)]) =
      (startPos.1 + delta.1 / s, startPos.2 + delta.2 / s) := by
  refine ⟨rfl, ?_⟩
  unfold PostIt.dragGesture
  rw [List.foldl_append]
  simp only [List.foldl_cons, List.foldl_nil]
  unfold PostIt.handleGlobalMouseMove PostIt.handleMouseDown PostIt.adjustedPointer
  rw [Prod.mk.injEq]
  constructor <;> field_simp <;> ring

/-- Witness for C5: pan `(10, 20)`, scale `2`, note at `(5, 6)`, pointer
moving by `(8, 10)` ends the drag at `(5 + 4, 6 + 5)`. -/
theorem drag_coordinate_correction_witness :
    (2 : ℚ) ≠ 0 ∧
    PostIt.dragGesture (10, 20) 2 (30, 40) (5, 6) ([(31, 41)] ++ [(30 + 8, 40 + 10)]) =
      (5 + 8 / 2, 6 + 10 / 2) :=
  ⟨by norm_num, (drag_coordinate_correction (10, 20) 2 (30, 40) (5, 6) (8, 10) [(31, 41)]
    (by norm_num)).2⟩

/-- C6: in the list produced by the paginated revision's load-time sort,
an earlier note that is owned forces every later note to be owned too
(equivalently, an owned note never precedes an unowned one, so owned notes
render on top), and two notes of the same ownership class appear in
identifier order. -/
theorem loadNotesSort_own_notes_on_top (myNoteIds : List String) (notes : List Note)
    (i j : Fin (Part002.loadNotesSort myNoteIds notes).length) (hij : i < j) :
    (Part002.isOwn myNoteIds ((Part002.loadNotesSort myNoteIds notes).get i) = true →
      Part002.isOwn myNoteIds ((Part002.loadNotesSort myNoteIds notes).get j) = true) ∧
    (Part002.isOwn myNoteIds ((Part002.loadNotesSort myNoteIds notes).get i) =
        Part002.isOwn myNoteIds ((Part002.loadNotesSort myNoteIds notes).get j) →
      strLe ((Part002.loadNotesSort myNoteIds notes).get i).id
        ((Part002.loadNotesSort myNoteIds notes).get j).id) := by
  haveI : IsTotal Note (Part002.noteLE myNoteIds) := ⟨Part002.noteLE_total myNoteIds⟩
  haveI : IsTrans Note (Part002.noteLE myNoteIds) := ⟨Part002.noteLE_trans myNoteIds⟩
  have hs : (Part002.loadNotesSort myNoteIds notes).Sorted (Part002.noteLE myNoteIds) :=
    List.sorted_insertionSort (Part002.noteLE myNoteIds) notes
  have hrel := hs.rel_get_of_lt hij
  rw [Part002.noteLE_iff] at hrel
  constructor
  · intro hi
    rcases hrel with ⟨heq, _⟩ | ⟨hfalse, _⟩
    · exact heq ▸ hi
    · rw [hi] at hfalse
      exact absurd hfalse (by simp)
  · intro heq
    rcases hrel with ⟨_, hle⟩ | ⟨hfalse, htrue⟩
    · exact hle
    · rw [hfalse, htrue] at heq
      exact absurd heq (by simp)

/-- Witness for C6, the spec's scenario: three notes from other authors
plus one locally created note (`"d"` in the registry); the sort places the
local note last, and the theorem applied at indices 0 < 3 confirms the
layering implication there. -/
theorem loadNotesSort_own_notes_on_top_witness :
    (Part002.loadNotesSort ["d"]
        [sampleNote "b", sampleNote "d", sampleNote "a", sampleNote "c"]).map (·.id)
      = ["a", "b", "c", "d"] ∧
    (Part002.isOwn ["d"] ((Part002.loadNotesSort ["d"]
        [sampleNote "b", sampleNote "d", sampleNote "a", sampleNote "c"]).get ⟨0, by decide⟩) = true →
      Part002.isOwn ["d"] ((Part002.loadNotesSort ["d"]
        [sampleNote "b", sampleNote "d", sampleNote "a", sampleNote "c"]).get ⟨3, by decide⟩) = true) :=
  ⟨by decide,
    (loadNotesSort_own_notes_on_top ["d"]
      [sampleNote "b", sampleNote "d", sampleNote "a", sampleNote "c"]
      ⟨0, by decide⟩ ⟨3, by decide⟩ (by decide)).1⟩

/-- C7 (amended): on a `DELETE` event, the paginated revision's handler
removes the note from the in-memory list and filters the id out of the
Ownership Registry; the earlier multi-subscription revision's handler
removes the note from the list but passes the registry through
unchanged. -/
theorem handleDeleteEvent_reconciles (notes : List Note) (myNoteIds : List String)
    (x : String) :
    x ∉ (Part002.handleDeleteEvent notes myNoteIds x).1.map (·.id) ∧
    (Part002.handleDeleteEvent notes myNoteIds x).2 = myNoteIds.filter (fun id => id ≠ x) ∧
    x ∉ (Part004.handleDeleteEvent notes myNoteIds x).1.map (·.id) ∧
    (Part004.handleDeleteEvent notes myNoteIds x).2 = myNoteIds := by
  refine ⟨?_, rfl, ?_, rfl⟩ <;>
  · simp only [Part002.handleDeleteEvent, Part004.handleDeleteEvent, List.mem_map,
      List.mem_filter, not_exists]
    rintro a ⟨⟨-, ha⟩, rfl⟩
    simp at ha

/-- Counterexample for C7 as stated: in the earlier multi-subscription
revision, a registry holding `["a", "b"]` that receives a delete event for
`"b"` still holds `["a", "b"]` afterwards — not the `["a"]` the claim
requires of every reconciliation handler. -/
theorem handleDeleteEvent_part004_keeps_registry :
    (Part004.handleDeleteEvent [sampleNote "a", sampleNote "b"] ["a", "b"] "b").2 = ["a", "b"] ∧
    (["a", "b"] : List String) ≠ ["a"] :=
  ⟨rfl, by decide⟩

/-- C8: composing a note issues exactly one insert carrying the given
content and author, with both coordinates in `[100, 400)`; on success the
returned server id is appended to the Ownership Registry and the remote
store then contains exactly one note with that id. -/
theorem handleAddNote_compose (st : App.AppState) (store : List Note)
    (content author : String) (ty : NoteType) (imageData : Option String)
    (r1 r2 r3 : ℚ) (freshId : String)
    (h1 : 0 ≤ r1) (h2 : r1 < 1) (h3 : 0 ≤ r2) (h4 : r2 < 1)
    (h5 : freshId ∉ store.map (·.id)) :
    App.handleAddNote st store content author ty imageData r1 r2 r3 (some freshId) =
      ({ st with myNoteIds := st.myNoteIds ++ [freshId] },
       store ++ [Note.mk freshId content (100 + r1 * 300, 100 + r2 * 300) author
         (App.pickColor r3) ty (App.imagePayload ty imageData) none none none],
       [NetCall.insert content author (100 + r1 * 300) (100 + r2 * 300)
         (App.pickColor r3) ty (App.imagePayload ty imageData)]) ∧
    (100 ≤ 100 + r1 * 300 ∧ 100 + r1 * 300 < 400) ∧
    (100 ≤ 100 + r2 * 300 ∧ 100 + r2 * 300 < 400) ∧
    ((store ++ [Note.mk freshId content (100 + r1 * 300, 100 + r2 * 300) author
        (App.pickColor r3) ty (App.imagePayload ty imageData) none none none]).countP
      (fun n => decide (n.id = freshId))) = 1 := by
  refine ⟨rfl, ⟨by nlinarith, by nlinarith⟩, ⟨by nlinarith, by nlinarith⟩, ?_⟩
  rw [List.countP_append]
  have hz : store.countP (fun n => decide (n.id = freshId)) = 0 := by
    rw [List.countP_eq_zero]
    intro a ha
    simp only [decide_eq_true_eq]
    intro hae
    exact h5 (List.mem_map.mpr ⟨a, ha, hae⟩)
  rw [hz]
  simp [List.countP_cons]

/-- Witness for C8, the spec's scenario: composing
`content = "Happy Birthday!"`, `author = "Sam"` with both random draws at
`1/2` issues one insert with those fields at position `(250, 250)` and
appends the returned id to the registry. -/
theorem handleAddNote_compose_witness :
    ((0 : ℚ) ≤ 1 / 2 ∧ (1 / 2 : ℚ) < 1 ∧ "id1" ∉ ([] : List Note).map (·.id)) ∧
    App.handleAddNote ⟨[], [], none⟩ [] "Happy Birthday!" "Sam" NoteType.text none
        (1 / 2) (1 / 2) 0 (some "id1") =
      (⟨[], ["id1"], none⟩,
       [Note.mk "id1" "Happy Birthday!" (100 + (1 / 2 : ℚ) * 300, 100 + (1 / 2 : ℚ) * 300) "Sam"
         (App.pickColor 0) NoteType.text (App.imagePayload NoteType.text none) none none none],
       [NetCall.insert "Happy Birthday!" "Sam" (100 + (1 / 2 : ℚ) * 300) (100 + (1 / 2 : ℚ) * 300)
         (App.pickColor 0) NoteType.text (App.imagePayload NoteType.text none)]) := by
  refine ⟨⟨by norm_num, by norm_num, by simp⟩, ?_⟩
  have h := (handleAddNote_compose ⟨[], [], none⟩ [] "Happy Birthday!" "Sam" NoteType.text none
    (1 / 2) (1 / 2) 0 "id1" (by norm_num) (by norm_num) (by norm_num) (by norm_num) (by simp)).1
  simpa using h

/-- C9: for every resize gesture and pointer delta — arbitrarily negative
included — the transient size produced by a resize move is at least
150 × 150, and the gesture end persists exactly that clamped size. -/
theorem handleResizeMove_min_150 (startW startH dx dy : ℚ) (id : String) :
    150 ≤ (PostIt.handleResizeMove (startW, startH) (dx, dy)).1 ∧
    150 ≤ (PostIt.handleResizeMove (startW, startH) (dx, dy)).2 ∧
    PostIt.handleResizeEnd id (PostIt.handleResizeMove (startW, startH) (dx, dy)) =
      NetCall.updateSize id (PostIt.handleResizeMove (startW, startH) (dx, dy)).1
        (PostIt.handleResizeMove (startW, startH) (dx, dy)).2 :=
  ⟨le_max_left _ _, le_max_left _ _, rfl⟩

/-- C10: in the `UPDATE` reconciliation merge, every field whose incoming
payload value is falsy — numeric `0` for positions, width, height or
rotation, the empty string for content or colour — is dropped and the old
local value kept. -/
theorem applyUpdatePayload_falsy_keeps_old (n : Note) (p : Part002.UpdatePayload) :
    (p.content = some "" → (Part002.applyUpdatePayload n p).content = n.content) ∧
    (p.position_x = some 0 → (Part002.applyUpdatePayload n p).position.1 = n.position.1) ∧
    (p.position_y = some 0 → (Part002.applyUpdatePayload n p).position.2 = n.position.2) ∧
    (p.color = some "" → (Part002.applyUpdatePayload n p).color = n.color) ∧
    (p.width = some 0 → (Part002.applyUpdatePayload n p).width = n.width) ∧
    (p.height = some 0 → (Part002.applyUpdatePayload n p).height = n.height) ∧
    (p.rotation = some 0 → (Part002.applyUpdatePayload n p).rotation = n.rotation) := by
  refine ⟨?_, ?_, ?_, ?_, ?_, ?_, ?_⟩ <;>
    (intro hp
     simp [Part002.applyUpdatePayload, Part002.jsOrStr, Part002.jsOrNum, Part002.jsOrNumOpt, hp])

/-- Witness for C10: a payload carrying rotation `0`, position x `0` and
empty content leaves those fields of a concrete note untouched. -/
theorem applyUpdatePayload_falsy_keeps_old_witness :
    ((Part002.applyUpdatePayload (sampleNote "a")
        ⟨some "", some 0, none, none, none, none, some 0⟩).rotation = (sampleNote "a").rotation) ∧
    ((Part002.applyUpdatePayload (sampleNote "a")
        ⟨some "", some 0, none, none, none, none, some 0⟩).position.1 = (sampleNote "a").position.1) ∧
    ((Part002.applyUpdatePayload (sampleNote "a")
        ⟨some "", some 0, none, none, none, none, some 0⟩).content = (sampleNote "a").content) :=
  ⟨(applyUpdatePayload_falsy_keeps_old (sampleNote "a")
      ⟨some "", some 0, none, none, none, none, some 0⟩).2.2.2.2.2.2 rfl,
   (applyUpdatePayload_falsy_keeps_old (sampleNote "a")
      ⟨some "", some 0, none, none, none, none, some 0⟩).2.1 rfl,
   (applyUpdatePayload_falsy_keeps_old (sampleNote "a")
      ⟨some "", some 0, none, none, none, none, some 0⟩).1 rfl⟩
